import Mathlib

/-!
Verification of the InfraLens core (src/app.py): the two workbook schema
parsers (RVTools / LiveOptics), the VCF9 compatibility lookup, the
licensing calculator, the Excalidraw layout engine and the CSV report
formatters, shallowly embedded in Lean.

Workbook cells are modelled as strings (the parsers only ever see cell
values through str()/strip() coercions).  Python floats are modelled as
rationals: every numeric value the program manipulates (percentages,
quarter-TiB multiples) is exactly representable in binary floating point,
so the rational semantics agrees with the float semantics on the program's
value range.  Character classes (\s, \d, str.strip, str.isdigit) are
modelled over their ASCII range, which covers the data these spreadsheets
contain.
-/

namespace InfraLens

/- ── Layout constants (app.py lines 64-76) ── -/

def ZONE_W : Nat := 780
def COLS : Nat := 3
def HOST_W : Nat := 230
def HOST_H : Nat := 120
def CLUSTER_H : Nat := 28
def HEADER_H : Nat := 65
def PAD : Nat := 12
def COL_GAP : Nat := 10
def ROW_GAP : Nat := 8
def ZONE_GAP : Nat := 30
def CANVAS_X : Nat := 60
def CANVAS_Y : Nat := 60

/- ── Python string helpers ── -/

/-- Python whitespace (the class \s and str.strip), ASCII range. -/
def pySpace (c : Char) : Bool :=
  c == ' ' || c == '\t' || c == '\n' || c == '\r' || c == '\x0b' || c == '\x0c'

/-- str.strip() on a character list. -/
def stripL (cs : List Char) : List Char :=
  ((cs.dropWhile pySpace).reverse.dropWhile pySpace).reverse

/-- str.strip() on a string. -/
def pyStrip (s : String) : String := String.mk (stripL s.data)

/-- str.lower() over the ASCII range (per-character lowering). -/
def toLowerStr (s : String) : String := String.mk (s.data.map Char.toLower)

/-- sep.join(parts). -/
def joinSep (sep : String) : List String → String
  | [] => ""
  | [v] => v
  | v :: rest => v ++ sep ++ joinSep sep rest

/-- Greedy \d+ at the head of the input: longest digit run and the rest. -/
def spanDigits : List Char → List Char × List Char
  | [] => ([], [])
  | c :: cs =>
    if c.isDigit then
      let p := spanDigits cs
      (c :: p.1, p.2)
    else ([], c :: cs)

/-- One step of matching \d+ : fails on an empty digit run (the regex
requires at least one digit), otherwise yields the run and the rest. -/
def takeNum (cs : List Char) : Option (List Char × List Char) :=
  match spanDigits cs with
  | ([], _) => none
  | (d, r) => some (d, r)

/-- One step of matching a literal dot. -/
def expectDot : List Char → Option (List Char)
  | c :: r => if c = '.' then some r else none
  | [] => none

/-- One attempt of the regex (\d+\.\d+\.\d+) anchored at the start of the
input (re module semantics: each \d+ is greedy; since a maximal digit run
is never followed by a digit, greedy matching needs no backtracking). -/
def matchVerAt (cs : List Char) : Option (List Char) := do
  let p1 ← takeNum cs
  let r2 ← expectDot p1.2
  let p2 ← takeNum r2
  let r4 ← expectDot p2.2
  let p3 ← takeNum r4
  pure (p1.1 ++ '.' :: (p2.1 ++ '.' :: p3.1))

/-- re.search(r'(\d+\.\d+\.\d+)', s): try every start position left to
right, return the first match. -/
def searchVer : List Char → Option (List Char)
  | [] => none
  | c :: t =>
    match matchVerAt (c :: t) with
    | some m => some m
    | none => searchVer t

/-- The version-abbreviation step of both parsers (app.py lines 264-268 and
366-370): keep the first major.minor.patch pattern, else the whole string. -/
def shortenVer (s : String) : String :=
  match searchVer s.data with
  | some m => String.mk m
  | none => s

/- ── Version-pattern predicates ── -/

/-- A list whose head (if any) is not a digit. -/
def headNotDigit : List Char → Prop
  | [] => True
  | c :: _ => c.isDigit = false

/-- Propositional form of "every character is a digit". -/
def allDigits (l : List Char) : Prop := ∀ c ∈ l, c.isDigit = true

instance (l : List Char) : Decidable (allDigits l) := by
  unfold allDigits; infer_instance

/-- A string that is exactly a major.minor.patch numeric pattern. -/
def isExactVerPattern (s : String) : Prop :=
  ∃ d1 d2 d3 : List Char, d1 ≠ [] ∧ d2 ≠ [] ∧ d3 ≠ [] ∧
    allDigits d1 ∧ allDigits d2 ∧ allDigits d3 ∧
    s.data = d1 ++ '.' :: (d2 ++ '.' :: d3)

/-- A string containing a major.minor.patch numeric pattern somewhere. -/
def containsVerPattern (s : String) : Prop :=
  ∃ pre d1 d2 d3 post : List Char, d1 ≠ [] ∧ d2 ≠ [] ∧ d3 ≠ [] ∧
    allDigits d1 ∧ allDigits d2 ∧ allDigits d3 ∧
    s.data = pre ++ (d1 ++ '.' :: (d2 ++ '.' :: (d3 ++ post)))

/- ── Python numeric coercions ── -/

/-- Numeric value of a digit run. -/
def natOfDigits (l : List Char) : Nat :=
  l.foldl (fun n c => n * 10 + (c.toNat - 48)) 0

/-- Exponent part of a float literal: nothing (exponent 0), or e/E with an
optional sign and a nonempty digit run; returns the exponent and the
leftover input. -/
def parseExp : List Char → Option (Int × List Char)
  | [] => some (0, [])
  | c :: t =>
    if c = 'e' || c = 'E' then
      match t with
      | '+' :: u =>
        match spanDigits u with
        | ([], _) => none
        | (ds, r) => some ((natOfDigits ds : Int), r)
      | '-' :: u =>
        match spanDigits u with
        | ([], _) => none
        | (ds, r) => some (-(natOfDigits ds : Int), r)
      | u =>
        match spanDigits u with
        | ([], _) => none
        | (ds, r) => some ((natOfDigits ds : Int), r)
    else some (0, c :: t)

/-- Python float(s) for finite decimal/scientific literals (the numeric
strings these spreadsheets contain); none where float() raises ValueError.
The value is an exact rational; see the module comment. -/
def pyFloat? (s : String) : Option ℚ :=
  let cs := stripL s.data
  let sg : ℚ × List Char :=
    match cs with
    | '+' :: t => (1, t)
    | '-' :: t => (-1, t)
    | _ => (1, cs)
  let ip := spanDigits sg.2
  let fp : List Char × List Char :=
    match ip.2 with
    | '.' :: t => spanDigits t
    | _ => ([], ip.2)
  if ip.1 = [] ∧ fp.1 = [] then none
  else
    match parseExp fp.2 with
    | none => none
    | some (e, r) =>
      if r = [] then
        some (sg.1 * ((natOfDigits ip.1 : ℚ) +
          (natOfDigits fp.1 : ℚ) / (10 : ℚ) ^ fp.1.length) * (10 : ℚ) ^ e)
      else none

/-- Round-half-even of a rational to an integer: the rounding of Python's
"{:.0f}" float format on the exactly-represented values in scope. -/
def roundHalfEven (q : ℚ) : Int :=
  let f := Rat.floor q
  let frac := q - (f : ℚ)
  if frac < 1/2 then f
  else if 1/2 < frac then f + 1
  else if f % 2 = 0 then f else f + 1

/-- fmt_pct (app.py lines 99-104). -/
def fmt_pct (v : String) : String :=
  match pyFloat? v with
  | some q => toString (roundHalfEven q) ++ "%"
  | none => if v = "" then "—" else pyStrip v

/-- int(float(s)): Int.tdiv truncates toward zero like Python's int(). -/
def pyIntFloat? (s : String) : Option Int :=
  (pyFloat? s).map (fun q => Int.tdiv q.num (q.den : Int))

/- ── Workbook model and column resolution ── -/

/-- A spreadsheet row: cells keyed by column name; an absent key is a
blank/NaN cell. -/
abbrev Row := List (String × String)

structure Sheet where
  columns : List String
  rows : List Row
deriving DecidableEq

structure Workbook where
  sheets : List (String × Sheet)
deriving DecidableEq

def sheetNamesLower (wb : Workbook) : List String :=
  wb.sheets.map (fun p => toLowerStr p.1)

/-- sheet_names_lower.get(key): the dict comprehension keeps, per lowercased
name, the last sheet. -/
def getSheetCI (wb : Workbook) (key : String) : Option Sheet :=
  (wb.sheets.reverse.find? (fun p => toLowerStr p.1 == key)).map (fun p => p.2)

/-- cols_lower.get(key): last column whose lowercased name equals key. -/
def colsLowerGet (cols : List String) (key : String) : Option String :=
  cols.reverse.find? (fun c => toLowerStr c == key)

/-- find_col (app.py lines 84-90): first candidate present among the columns,
compared case-insensitively. -/
def find_col (cols : List String) : List String → Option String
  | [] => none
  | cand :: rest =>
    match colsLowerGet cols (toLowerStr cand) with
    | some c => some c
    | none => find_col cols rest

/-- safe(row[col]) and safe(row.get(col, "")): blank for a missing (NaN)
cell, str(...).strip() otherwise. -/
def cellStr (row : Row) (col : String) : String :=
  pyStrip ((row.lookup col).getD "")

def cellOpt (row : Row) (col : Option String) : String :=
  match col with
  | some c => cellStr row c
  | none => ""

/- ── Canonical host / site model ── -/

structure Verdict where
  status : String
  label : String
deriving DecidableEq

structure Host where
  hostname : String
  cluster : String
  model : String
  esxi : String
  vms : String
  cpu : String
  mem : String
  svc : String
  sockets : Int
  cores_per_socket : Int
  vcf9 : Option Verdict := none
deriving DecidableEq

structure Site where
  site_name : String
  clusters : List (String × List Host)
  vcenter_version : String
  total_hosts : Nat
  total_vms : Nat
deriving DecidableEq

/-- clusters.setdefault(c, []).append(h): append to the entry with key c,
keeping dict insertion order, or add a new entry at the end. -/
def addToCluster : List (String × List Host) → String → Host → List (String × List Host)
  | [], c, h => [(c, [h])]
  | (k, hs) :: rest, c, h =>
    if k = c then (k, hs ++ [h]) :: rest
    else (k, hs) :: addToCluster rest c h

/-- Group hosts by their cluster field (app.py lines 313-317 and 400-402). -/
def groupClusters (hosts : List Host) : List (String × List Host) :=
  hosts.foldl (fun acc h => addToCluster acc h.cluster h) []

/-- str.isdigit over the ASCII range: nonempty, all digits. -/
def pyIsDigit (s : String) : Bool :=
  !s.data.isEmpty && s.data.all Char.isDigit

/-- Contribution of one host to total_vms: int(vms) if vms.isdigit() else 0. -/
def vmsCount (h : Host) : Nat :=
  if pyIsDigit h.vms then natOfDigits h.vms.data else 0

/- ── RVTools parser (app.py lines 229-325) ── -/

structure RvCols where
  host : Option String
  cluster : Option String
  model : Option String
  esxi : Option String
  vms : Option String
  cpu : Option String
  mem : Option String
  svc : Option String
  sockets : Option String
  cores : Option String

def rvCols (cols : List String) : RvCols where
  host := find_col cols ["VM Host", "Host", "DNS Name", "Name"]
  cluster := find_col cols ["Cluster", "Cluster Name"]
  model := find_col cols ["Model", "Hardware Model"]
  esxi := find_col cols ["ESX Version", "ESXi Version", "Version"]
  vms := find_col cols ["# VMs", "VMs", "Number of VMs", "#VMs"]
  cpu := find_col cols ["CPU usage %", "CPU %", "CPU Usage %", "CPU%"]
  mem := find_col cols ["Memory usage %", "Mem %", "Memory %", "Mem%"]
  svc := find_col cols ["Service Tag", "Serial Number", "SN"]
  sockets := find_col cols ["# CPU", "CPUs", "CPU Sockets", "Sockets", "Num CPU"]
  cores := find_col cols ["Cores per CPU", "# Cores per CPU", "Cores Per Socket"]

def rvHostname (cols : RvCols) (row : Row) : String :=
  cellOpt row cols.host

/-- sockets_val / cores_val: int(float(safe(cell))), errors giving 0. -/
def intFieldVal (row : Row) (col : Option String) : Int :=
  match col with
  | some c =>
    match pyIntFloat? (cellStr row c) with
    | some n => n
    | none => 0
  | none => 0

/-- The per-row body of the RVTools host loop; none when the hostname is
blank (the row is skipped). -/
def rvRowHost (cols : RvCols) (row : Row) : Option Host :=
  let hostname := rvHostname cols row
  if hostname = "" then none
  else
    let cluster :=
      match cols.cluster with
      | some c => cellStr row c
      | none => "Default"
    let esxi := cellOpt row cols.esxi
    let vms := cellOpt row cols.vms
    some {
      hostname := hostname
      cluster := if cluster = "" then "Default" else cluster
      model := cellOpt row cols.model
      esxi := shortenVer esxi
      vms := if vms = "" then "0" else vms
      cpu := fmt_pct (cellOpt row cols.cpu)
      mem := fmt_pct (cellOpt row cols.mem)
      svc := cellOpt row cols.svc
      sockets := intFieldVal row cols.sockets
      cores_per_socket := intFieldVal row cols.cores }

/-- Case-insensitive literal match, consuming pat from the input. -/
def matchLitCI : List Char → List Char → Option (List Char)
  | [], cs => some cs
  | _ :: _, [] => none
  | p :: ps, c :: cs => if c.toLower = p.toLower then matchLitCI ps cs else none

/-- One attempt of re.search(r'vCenter Server\s+(\d+\.\d+\.\d+)', s, re.I),
returning the captured group. -/
def matchVCenterAt (cs : List Char) : Option (List Char) := do
  let r1 ← matchLitCI ("vCenter Server".data) cs
  let sp := r1.span pySpace
  if sp.1.isEmpty then none
  else matchVerAt sp.2

def searchVCenter : List Char → Option (List Char)
  | [] => none
  | c :: t =>
    match matchVCenterAt (c :: t) with
    | some m => some m
    | none => searchVCenter t

/-- One attempt of the regex (\d+\.\d+\.\d+\.\d+). -/
def matchVer4At (cs : List Char) : Option (List Char) := do
  let p1 ← takeNum cs
  let r2 ← expectDot p1.2
  let p2 ← takeNum r2
  let r4 ← expectDot p2.2
  let p3 ← takeNum r4
  let r6 ← expectDot p3.2
  let p4 ← takeNum r6
  pure (p1.1 ++ '.' :: (p2.1 ++ '.' :: (p3.1 ++ '.' :: p4.1)))

def searchVer4 : List Char → Option (List Char)
  | [] => none
  | c :: t =>
    match matchVer4At (c :: t) with
    | some m => some m
    | none => searchVer4 t

/-- The vSource scan (app.py lines 297-311): per non-NaN value, first the
vCenter-Server pattern then the 4-component fallback; first hit wins. -/
def vsourceVersion : List String → String
  | [] => ""
  | v :: rest =>
    let s := pyStrip v
    match searchVCenter s.data with
    | some m => String.mk m
    | none =>
      match searchVer4 s.data with
      | some m => String.mk m
      | none => vsourceVersion rest

def parse_rvtools (wb : Workbook) (site_name : String) : Except String Site :=
  match getSheetCI wb "vhost" with
  | none => .error ("No vHost sheet found in " ++ site_name)
  | some vh =>
    let cols := rvCols vh.columns
    let hosts := vh.rows.filterMap (rvRowHost cols)
    let vcenter :=
      match getSheetCI wb "vsource" with
      | none => ""
      | some vs =>
        match find_col vs.columns ["Fullname", "Full Name", "Version", "Name"] with
        | none => ""
        | some colFn => vsourceVersion (vs.rows.filterMap (fun r => r.lookup colFn))
    .ok {
      site_name := site_name
      clusters := groupClusters hosts
      vcenter_version := vcenter
      total_hosts := hosts.length
      total_vms := (hosts.map vmsCount).sum }

/- ── LiveOptics parser (app.py lines 328-410) ── -/

/-- safe(row.get("Host", "")) used as the perf_map key. -/
def loPerfKey (row : Row) : String := cellStr row "Host"

/-- perf_map.get(hostname): dict insertion keyed by nonempty host, later
rows overwrite earlier ones. -/
def loPerfLookup (perfRows : List Row) (hostname : String) : Option Row :=
  (perfRows.filter (fun r => loPerfKey r != "")).reverse.find?
    (fun r => loPerfKey r == hostname)

/-- The per-row body of the LiveOptics host loop. -/
def loRowHost (colSockets colCores : Option String) (perfRows : List Row)
    (row : Row) : Option Host :=
  let hostname := cellStr row "Host Name"
  if hostname = "" then none
  else
    let esxi :=
      match searchVer (cellStr row "OS").data with
      | some m => String.mk m
      | none => ""
    let perf := loPerfLookup perfRows hostname
    let perfCpu :=
      match perf with
      | some r => (r.lookup "Average CPU %").getD ""
      | none => ""
    let perfMem :=
      match perf with
      | some r => (r.lookup "Average Memory %").getD ""
      | none => ""
    let cluster := cellStr row "Cluster"
    let vms := cellStr row "Guest VM Count"
    some {
      hostname := hostname
      cluster := if cluster = "" then "Default" else cluster
      model := cellStr row "Model"
      esxi := esxi
      vms := if vms = "" then "0" else vms
      cpu := fmt_pct perfCpu
      mem := fmt_pct perfMem
      svc := cellStr row "Serial No"
      sockets := intFieldVal row colSockets
      cores_per_socket := intFieldVal row colCores }

def parse_liveoptics (wb : Workbook) (site_name : String) : Except String Site :=
  match getSheetCI wb "esx hosts" with
  | none => .error ("No 'ESX Hosts' sheet found in " ++ site_name)
  | some hsheet =>
    let colSockets := find_col hsheet.columns ["CPU Sockets", "Sockets"]
    let colCores := find_col hsheet.columns ["Cores Per Socket", "Cores per CPU"]
    let perfRows :=
      match getSheetCI wb "esx performance" with
      | some p => p.rows
      | none => []
    let vcenter :=
      match hsheet.rows with
      | [] => ""
      | r0 :: _ =>
        match searchVer (cellStr r0 "vCenter").data with
        | some m => String.mk m
        | none => ""
    let hosts := hsheet.rows.filterMap (loRowHost colSockets colCores perfRows)
    .ok {
      site_name := site_name
      clusters := groupClusters hosts
      vcenter_version := vcenter
      total_hosts := hosts.length
      total_vms := (hosts.map vmsCount).sum }

/-- parse_file (app.py lines 413-421): format dispatch on the lowercased
sheet-name set. -/
def parse_file (wb : Workbook) (site_name : String) : Except String Site :=
  if "vhost" ∈ sheetNamesLower wb then parse_rvtools wb site_name
  else if "esx hosts" ∈ sheetNamesLower wb then parse_liveoptics wb site_name
  else .error ("\"" ++ site_name ++ "\" is not a recognised RVTools or LiveOptics export")

/- ── VCF9 compatibility lookup (app.py lines 107-146) ── -/

/-- str.replace('ESXi ', ''): drop every occurrence, scanning left to
right without rescanning replaced spans. -/
def dropESXi : List Char → List Char
  | 'E' :: 'S' :: 'X' :: 'i' :: ' ' :: rest => dropESXi rest
  | c :: rest => c :: dropESXi rest
  | [] => []

def stripESXiStr (s : String) : String := String.mk (dropESXi s.data)

/-- Python sorted() on strings: insertion sort by the code-point
lexicographic order (the order on String compares the underlying character
lists, compare String.le_iff_toList_le); a totally ordered multiset has a
unique sorted listing, so any sort agrees. -/
def sortStrings (l : List String) : List String :=
  List.insertionSort (fun a b => a.data ≤ b.data) l

instance : IsTotal String (fun a b => a.data ≤ b.data) :=
  ⟨fun a b => le_total a.data b.data⟩

instance : IsTrans String (fun a b => a.data ≤ b.data) :=
  ⟨fun _ _ _ h1 h2 => le_trans h1 h2⟩

/-- _vcf9_label (app.py lines 132-134). -/
def vcf9_label (releases : List String) : String :=
  "✅ VCF " ++ joinSep " + " (sortStrings (releases.map stripESXiStr)) ++ " Ready"

/-- Consume one-or-more whitespace characters (\s+). -/
def spanSpace1 (cs : List Char) : Option (List Char) :=
  let p := cs.span pySpace
  if p.1.isEmpty then none else some p.2

/-- The optional greedy group (Inc\.?\s*) after "Dell\s+". -/
def dropInc (cs : List Char) : List Char :=
  match matchLitCI ("Inc".data) cs with
  | none => cs
  | some r1 =>
    let r2 :=
      match r1 with
      | '.' :: t => t
      | _ => r1
    (r2.span pySpace).2

/-- A vendor-name alternative of the form "name\s+". -/
def vendorLit (name : String) (cs : List Char) : Option (List Char) :=
  match matchLitCI name.data cs with
  | none => none
  | some r => spanSpace1 r

/-- Alternative Dell\s+(Inc\.?\s*)? of the vendor regex. -/
def vendorAlt1 (cs : List Char) : Option (List Char) :=
  match vendorLit "Dell" cs with
  | none => none
  | some r => some (dropInc r)

/-- Alternative HPE?\s+ : the greedy optional E backtracks when no
whitespace follows it. -/
def vendorAlt2 (cs : List Char) : Option (List Char) :=
  match matchLitCI ("HP".data) cs with
  | none => none
  | some r =>
    match r with
    | c :: t =>
      if c.toLower = 'e' then
        match spanSpace1 t with
        | some r2 => some r2
        | none => spanSpace1 (c :: t)
      else spanSpace1 (c :: t)
    | [] => none

/-- _VENDOR_PREFIX_RE (app.py lines 109-111), anchored at the start;
alternatives are tried left to right. -/
def vendorMatch (cs : List Char) : Option (List Char) :=
  match vendorAlt1 cs with
  | some r => some r
  | none =>
    match vendorAlt2 cs with
    | some r => some r
    | none =>
      match vendorLit "Lenovo" cs with
      | some r => some r
      | none =>
        match vendorLit "Cisco" cs with
        | some r => some r
        | none => vendorLit "Fujitsu" cs

/-- normalize_model (app.py lines 128-129): the anchored sub removes at
most one vendor-name match from the front, then strip(). -/
def normalize_model (model : String) : String :=
  match vendorMatch model.data with
  | some r => pyStrip (String.mk r)
  | none => pyStrip model

def isPrefL : List Char → List Char → Bool
  | [], _ => true
  | _ :: _, [] => false
  | p :: ps, c :: cs => p == c && isPrefL ps cs

/-- Substring containment, Python "pat in l". -/
def isSubstrL (pat : List Char) : List Char → Bool
  | [] => isPrefL pat []
  | c :: t => isPrefL pat (c :: t) || isSubstrL pat t

def unknownVerdict : Verdict := ⟨"unknown", "⚠️ VCF9 ?"⟩

/-- check_vcf9_compat (app.py lines 137-146).  The lookup dict is modelled
as an association list with distinct keys in dict iteration order (which
build_vcf9_lookup produces); List.lookup is dict indexing and List.find?
is the fallback containment loop. -/
def modelNorm (model : String) : String := toLowerStr (normalize_model model)

def check_vcf9_compat (model : String) (lookup : List (String × List String)) : Verdict :=
  if model = "" then unknownVerdict
  else
    match lookup.lookup (modelNorm model) with
    | some releases => ⟨"compatible", vcf9_label releases⟩
    | none =>
      match lookup.find? (fun p => isSubstrL (modelNorm model).data p.1.data ||
          isSubstrL p.1.data (modelNorm model).data) with
      | some p => ⟨"compatible", vcf9_label p.2⟩
      | none => ⟨"incompatible", "❌ Not VCF9 Ready"⟩

structure HclEntry where
  m : String
  r : List String
deriving DecidableEq

/-- Ordered-dict assignment: overwrite in place or append a new key. -/
def dictSet : List (String × List String) → String → List String → List (String × List String)
  | [], k, v => [(k, v)]
  | (k', v') :: rest, k, v =>
    if k' = k then (k', v) :: rest else (k', v') :: dictSet rest k v

/-- build_vcf9_lookup (app.py lines 124-125). -/
def build_vcf9_lookup (entries : List HclEntry) : List (String × List String) :=
  entries.foldl (fun d e => dictSet d (toLowerStr (pyStrip e.m)) e.r) []

/- ── Licensing calculator (app.py lines 425-478) ── -/

structure LicRow where
  site : String
  cluster : String
  hostname : String
  sockets : Int
  cores_per_socket : Int
  foundation_cores : Int
  entitled_tib : ℚ
  missing : Bool
deriving DecidableEq

structure LicAcc where
  rows : List LicRow
  total_cores : Int
  total_tib : ℚ
  missing_count : Nat
deriving DecidableEq

structure LicReport where
  rows : List LicRow
  total_cores : Int
  total_tib : ℚ
  missing_count : Nat
  deployment_type : String
  tib_per_core : ℚ
deriving DecidableEq

/-- The body of the per-host licensing loop. -/
def licHostStep (tib : ℚ) (siteName cname : String) (acc : LicAcc) (h : Host) : LicAcc :=
  if h.sockets = 0 ∨ h.cores_per_socket = 0 then
    let r : LicRow :=
      { site := siteName, cluster := cname, hostname := h.hostname,
        sockets := h.sockets, cores_per_socket := h.cores_per_socket,
        foundation_cores := 0, entitled_tib := 0, missing := true }
    { acc with rows := acc.rows ++ [r], missing_count := acc.missing_count + 1 }
  else
    let effective_cores := max h.cores_per_socket 16
    let foundation_cores := h.sockets * effective_cores
    let entitled_tib := (foundation_cores : ℚ) * tib
    let r : LicRow :=
      { site := siteName, cluster := cname, hostname := h.hostname,
        sockets := h.sockets, cores_per_socket := h.cores_per_socket,
        foundation_cores := foundation_cores, entitled_tib := entitled_tib, missing := false }
    { rows := acc.rows ++ [r],
      total_cores := acc.total_cores + foundation_cores,
      total_tib := acc.total_tib + entitled_tib,
      missing_count := acc.missing_count }

/-- The triple site/cluster/host loop of calculate_licensing. -/
def licFold (tib : ℚ) (sites : List Site) : LicAcc :=
  sites.foldl
    (fun a s => s.clusters.foldl
      (fun a2 p => p.2.foldl (licHostStep tib s.site_name p.1) a2) a)
    ⟨[], 0, 0, 0⟩

/-- calculate_licensing (app.py lines 425-478). -/
def calculate_licensing (sites : List Site) (deployment_type : String) : LicReport :=
  let tib : ℚ := if deployment_type = "VCF" then 1 else 1/4
  let acc := licFold tib sites
  { rows := acc.rows, total_cores := acc.total_cores, total_tib := acc.total_tib,
    missing_count := acc.missing_count, deployment_type := deployment_type,
    tib_per_core := tib }

/-- The per-row licensing contract of C2. -/
def licRowSpec (tib : ℚ) (r : LicRow) : Prop :=
  (r.sockets = 0 ∨ r.cores_per_socket = 0 →
    r.missing = true ∧ r.foundation_cores = 0 ∧ r.entitled_tib = 0) ∧
  (¬(r.sockets = 0 ∨ r.cores_per_socket = 0) →
    r.missing = false ∧ r.foundation_cores = r.sockets * max r.cores_per_socket 16 ∧
    r.entitled_tib = (r.foundation_cores : ℚ) * tib)

/-- Licensing accumulator invariant: every emitted row obeys the row
contract, and the running totals range over the non-missing rows only. -/
def licAccInv (tib : ℚ) (a : LicAcc) : Prop :=
  (∀ r ∈ a.rows, licRowSpec tib r) ∧
  a.total_cores =
    ((a.rows.filter (fun r => !r.missing)).map (fun r => r.foundation_cores)).sum ∧
  a.total_tib =
    ((a.rows.filter (fun r => !r.missing)).map (fun r => r.entitled_tib)).sum ∧
  a.missing_count = (a.rows.filter (fun r => r.missing)).length

/- ── Report formatters (app.py lines 181-187 and 481-489) ── -/

def csvQuote (v : String) : String := "\"" ++ v ++ "\""

/-- One CSV data row: every field double-quoted, comma separated. -/
def csvFormatRow (vals : List String) : String := joinSep "," (vals.map csvQuote)

/-- A standard CSV reader for a row of fully-quoted fields: an opening
quote, the field up to the next quote, then either end of line or a comma
followed by the next field.  Mode false expects an opening quote; mode
true accumulates the current field (reversed). -/
def csvScan : Bool → List Char → List Char → Option (List String)
  | false, _, cs =>
    match cs with
    | c :: rest => if c = '"' then csvScan true [] rest else none
    | [] => none
  | true, acc, cs =>
    match cs with
    | [] => none
    | c :: rest =>
      if c = '"' then
        match rest with
        | [] => some [String.mk acc.reverse]
        | c2 :: rest2 =>
          if c2 = ',' then
            (csvScan false [] rest2).map (fun fs => String.mk acc.reverse :: fs)
          else none
      else csvScan true (c :: acc) rest

/-- Parse one formatted CSV line back into its fields. -/
def csvParseRow (s : String) : Option (List String) := csvScan false [] s.data

structure Vcf9Row where
  site : String
  cluster : String
  hostname : String
  model : String
  esxi : String
  status : String
  label : String
deriving DecidableEq

structure Vcf9Report where
  rows : List Vcf9Row
  compatible : Nat
  incompatible : Nat
  unknown : Nat
  total : Nat
deriving DecidableEq

def vcf9RowOf (siteName cname : String) (h : Host) : Vcf9Row :=
  let v := h.vcf9.getD ⟨"unknown", "N/A"⟩
  { site := siteName, cluster := cname, hostname := h.hostname,
    model := h.model, esxi := h.esxi, status := v.status, label := v.label }

/-- build_vcf9_report (app.py lines 149-178); the loop counters equal the
per-status counts over the emitted rows. -/
def build_vcf9_report (sites : List Site) : Vcf9Report :=
  let rows := sites.flatMap
    (fun s => s.clusters.flatMap (fun p => p.2.map (vcf9RowOf s.site_name p.1)))
  { rows := rows
    compatible := rows.countP (fun r => r.status == "compatible")
    incompatible := rows.countP (fun r => r.status == "incompatible")
    unknown := rows.countP (fun r => r.status != "compatible" && r.status != "incompatible")
    total := rows.length }

def vcf9_report_csv (rep : Vcf9Report) : String :=
  joinSep "\n" ("Site,Cluster,Hostname,Model,ESXi Version,VCF9 Status" ::
    rep.rows.map (fun r => csvFormatRow [r.site, r.cluster, r.hostname, r.model, r.esxi, r.label]))

/-- Python "{:.2f}" on the exactly-represented values in scope: half-even
rounding at two decimals, printed with exactly two fraction digits. -/
def fmtF2 (q : ℚ) : String :=
  let n := roundHalfEven (q * 100)
  let sgn := if n < 0 then "-" else ""
  let m := n.natAbs
  let fr := m % 100
  sgn ++ toString (m / 100) ++ "." ++ (if fr < 10 then "0" else "") ++ toString fr

/-- license_report_csv (app.py lines 481-489). -/
def license_report_csv (rep : LicReport) : String :=
  joinSep "\n"
    (("Site,Cluster,Hostname,Sockets,Cores per Socket,Foundation Cores,Entitled TiB" ::
      rep.rows.map (fun r =>
        csvFormatRow [r.site, r.cluster, r.hostname, toString r.sockets,
          toString r.cores_per_socket,
          if r.missing then "" else toString r.foundation_cores,
          if r.missing then "" else fmtF2 r.entitled_tib])) ++
      [csvFormatRow ["Total", "", "", "", "", toString rep.total_cores, fmtF2 rep.total_tib]])

/- ── Layout engine (app.py lines 645-753) ── -/

inductive EKind where
  | zone
  | header
  | clusterLabel
  | host
  | legend
deriving DecidableEq

structure Element where
  kind : EKind
  x : Nat
  y : Nat
  w : Nat
  h : Nat
  label : String
deriving DecidableEq

/-- The five-or-six-line host label (app.py lines 706-715). -/
def hostLabel (vcf9On : Bool) (h : Host) : String :=
  joinSep "\n"
    ([h.hostname,
      if h.model ≠ "" then h.model else "—",
      if h.svc ≠ "" then "SVC: " ++ h.svc else "SVC: —",
      if h.esxi ≠ "" then "ESXi " ++ h.esxi else "ESXi —",
      "VMs:" ++ h.vms ++ "  CPU:" ++ h.cpu ++ "  Mem:" ++ h.mem] ++
     (if vcf9On then
        match h.vcf9 with
        | some v => [v.label]
        | none => []
      else []))

/-- One host box: row-major placement in a fixed 3-column grid. -/
def hostElement (vcf9On : Bool) (x0 cy hostH : Nat) (i : Nat) (h : Host) : Element :=
  { kind := .host,
    x := x0 + PAD + (i % COLS) * (HOST_W + COL_GAP),
    y := cy + (i / COLS) * (hostH + ROW_GAP),
    w := HOST_W, h := hostH,
    label := hostLabel vcf9On h }

/-- The site-header text (app.py lines 675-677). -/
def headerText (site : Site) : String :=
  let base := site.site_name ++ "  ·  " ++ toString site.total_hosts ++
    " hosts  ·  " ++ toString site.total_vms ++ " VMs"
  if site.vcenter_version ≠ "" then base ++ "\nvCenter " ++ site.vcenter_version else base

/-- The per-cluster loop (app.py lines 687-729): a label bar, then the
host boxes, advancing the vertical cursor. -/
def clustersEls (vcf9On : Bool) (x0 hostH : Nat) :
    List (String × List Host) → Nat → List Element
  | [], _ => []
  | (cname, chosts) :: rest, cy =>
    let labelEl : Element :=
      { kind := .clusterLabel, x := x0 + PAD, y := cy,
        w := ZONE_W - 2 * PAD, h := CLUSTER_H, label := cname }
    let cy2 := cy + CLUSTER_H + PAD
    let hostEls := chosts.enum.map (fun p => hostElement vcf9On x0 cy2 hostH p.1 p.2)
    let rows := (chosts.length + COLS - 1) / COLS
    labelEl ::
      (hostEls ++ clustersEls vcf9On x0 hostH rest (cy2 + rows * (hostH + ROW_GAP) + PAD))

/-- Zone height (app.py lines 660-664). -/
def siteZoneH (site : Site) (hostH : Nat) : Nat :=
  (site.clusters.foldl
    (fun acc p => acc + CLUSTER_H + PAD + ((p.2.length + COLS - 1) / COLS) * (hostH + ROW_GAP))
    (HEADER_H + PAD)) + PAD

/-- All elements of one site zone: background, header, clusters, hosts. -/
def siteElements (vcf9On : Bool) (site : Site) (x0 hostH : Nat) : List Element :=
  { kind := .zone, x := x0, y := CANVAS_Y, w := ZONE_W, h := siteZoneH site hostH,
    label := "" } ::
  { kind := .header, x := x0, y := CANVAS_Y, w := ZONE_W, h := HEADER_H,
    label := headerText site } ::
  clustersEls vcf9On x0 hostH site.clusters (CANVAS_Y + HEADER_H + PAD)

/-- Sites side by side, the x cursor advancing by a fixed pitch. -/
def sitesElements (vcf9On : Bool) (hostH : Nat) : List Site → Nat → List (List Element)
  | [], _ => []
  | s :: rest, x0 =>
    siteElements vcf9On s x0 hostH :: sitesElements vcf9On hostH rest (x0 + ZONE_W + ZONE_GAP)

def legendElement (x : Nat) : Element :=
  { kind := .legend, x := x, y := CANVAS_Y, w := 220, h := 90,
    label := "VCF 9 Compatibility\n✅ VCF x.x Ready\n❌ Not VCF9 Ready\n⚠️ VCF9 ? — model unknown" }

/-- The geometry/content skeleton of generate_excalidraw (app.py lines
645-753): one Element per rect() call, carrying kind, geometry and label.
Bound text sub-elements share their shape's geometry and are not modelled
separately; colors and random ids carry no geometric content. -/
def generateLayout (sites : List Site) (vcf9On : Bool) : List Element :=
  let hostH := if vcf9On then 140 else HOST_H
  (sitesElements vcf9On hostH sites CANVAS_X).flatten ++
    (if vcf9On then [legendElement (CANVAS_X + sites.length * (ZONE_W + ZONE_GAP))] else [])

/-- Open-rectangle intersection of two elements. -/
def overlaps (a b : Element) : Prop :=
  a.x < b.x + b.w ∧ b.x < a.x + a.w ∧ a.y < b.y + b.h ∧ b.y < a.y + a.h

instance (a b : Element) : Decidable (overlaps a b) := by
  unfold overlaps; infer_instance

/- ── Claim-side reference definitions and concrete inputs ── -/

/-- Claim-side count for C1: the rows of the dispatched host sheet whose
extracted hostname is non-blank (hostnames are extracted exactly as the
dispatched parser extracts them); none when the workbook is unrecognized. -/
def nonBlankHostnameRows (wb : Workbook) : Option Nat :=
  if "vhost" ∈ sheetNamesLower wb then
    match getSheetCI wb "vhost" with
    | some vh => some (vh.rows.countP (fun r => rvHostname (rvCols vh.columns) r != ""))
    | none => none
  else if "esx hosts" ∈ sheetNamesLower wb then
    match getSheetCI wb "esx hosts" with
    | some hs => some (hs.rows.countP (fun r => cellStr r "Host Name" != ""))
    | none => none
  else none

/-- A concrete Format-A workbook: 4 hosts, 3 in ClusterA and 1 in ClusterB
(plus one blank-hostname row that the parser skips). -/
def wbDemo : Workbook :=
  { sheets := [("vHost",
      { columns := ["VM Host", "Cluster"],
        rows := [
          [("VM Host", "esx1"), ("Cluster", "ClusterA")],
          [("VM Host", "esx2"), ("Cluster", "ClusterA")],
          [("VM Host", "esx3"), ("Cluster", "ClusterA")],
          [("Cluster", "ClusterA")],
          [("VM Host", "esx4"), ("Cluster", "ClusterB")]] })] }

/-- An empty workbook (recognized as neither format). -/
def wbNone : Workbook := { sheets := [("Sheet1", { columns := [], rows := [] })] }

/-- A concrete host with sockets=2, cores-per-socket=8 (the claimed
licensing example). -/
def hostA : Host :=
  { hostname := "esx1", cluster := "ClusterA", model := "", esxi := "", vms := "0",
    cpu := "—", mem := "—", svc := "", sockets := 2, cores_per_socket := 8 }

/-- A concrete host with sockets=0 (missing licensing data). -/
def hostZ : Host :=
  { hostname := "esx9", cluster := "ClusterA", model := "", esxi := "", vms := "0",
    cpu := "—", mem := "—", svc := "", sockets := 0, cores_per_socket := 16 }

def siteLic : Site :=
  { site_name := "S", clusters := [("ClusterA", [hostA, hostZ])],
    vcenter_version := "", total_hosts := 2, total_vms := 0 }

/-- The licensing row that calculate_licensing emits for hostA in VCF mode. -/
def rowA32 : LicRow :=
  { site := "S", cluster := "ClusterA", hostname := "esx1", sockets := 2,
    cores_per_socket := 8, foundation_cores := 32, entitled_tib := 32, missing := false }

/-- The Site that wbDemo parses to. -/
def siteDemo : Site := (parse_file wbDemo "Lab").toOption.getD ⟨"", [], "", 0, 0⟩

/-- The first element of the demo layout (the site zone rectangle). -/
def elemDemo0 : Element :=
  (generateLayout [siteDemo] false).headD ⟨EKind.legend, 0, 0, 0, 0, ""⟩

/- ════════ Theorems ════════ -/

theorem mk_data (s : String) : String.mk s.data = s := rfl

theorem spanDigits_eq (cs : List Char) : (spanDigits cs).1 ++ (spanDigits cs).2 = cs := by
  induction cs with
  | nil => rfl
  | cons c cs ih =>
    by_cases h : c.isDigit
    · simp [spanDigits, h, ih]
    · simp [spanDigits, h]

theorem spanDigits_fst_digit (cs : List Char) : ∀ c ∈ (spanDigits cs).1, c.isDigit = true := by
  induction cs with
  | nil => intro c hc; simp [spanDigits] at hc
  | cons a tl ih =>
    intro c hc
    by_cases h : a.isDigit
    · simp [spanDigits, h] at hc
      rcases hc with h1 | h2
      · exact h1 ▸ h
      · exact ih c h2
    · simp [spanDigits, h] at hc

theorem spanDigits_of_append (d r : List Char)
    (hd : ∀ c ∈ d, c.isDigit = true) (hr : headNotDigit r) :
    spanDigits (d ++ r) = (d, r) := by
  induction d with
  | nil =>
    cases r with
    | nil => rfl
    | cons c cs =>
      simp only [headNotDigit] at hr
      simp [spanDigits, hr]
  | cons c d ih =>
    have hc : c.isDigit = true := hd c (by simp)
    have := ih (fun x hx => hd x (by simp [hx]))
    simp [spanDigits, hc, this]

theorem spanDigits_fst_ne_nil (c : Char) (t : List Char) (hc : c.isDigit = true) :
    (spanDigits (c :: t)).1 ≠ [] := by
  simp [spanDigits, hc]

theorem takeNum_eq (cs d r : List Char) :
    takeNum cs = some (d, r) ↔ spanDigits cs = (d, r) ∧ d ≠ [] := by
  unfold takeNum
  rcases hs : spanDigits cs with ⟨d', r'⟩
  cases d' with
  | nil =>
    show (none : Option (List Char × List Char)) = some (d, r) ↔
      (([], r') : List Char × List Char) = (d, r) ∧ d ≠ []
    constructor
    · intro h; exact absurd h (by simp)
    · rintro ⟨h1, h3⟩
      rw [Prod.mk.injEq] at h1
      exact absurd h1.1.symm h3
  | cons c t =>
    show some (c :: t, r') = some (d, r) ↔
      ((c :: t, r') : List Char × List Char) = (d, r) ∧ d ≠ []
    simp only [Option.some.injEq, Prod.mk.injEq]
    constructor
    · rintro ⟨h1, h2⟩
      exact ⟨⟨h1, h2⟩, by rw [← h1]; simp⟩
    · rintro ⟨⟨h1, h2⟩, _⟩
      exact ⟨h1, h2⟩

theorem takeNum_isSome (cs : List Char) (h : (spanDigits cs).1 ≠ []) :
    takeNum cs = some ((spanDigits cs).1, (spanDigits cs).2) := by
  unfold takeNum
  rcases hs : spanDigits cs with ⟨d', r'⟩
  rw [hs] at h
  cases d' with
  | nil => simp at h
  | cons c t => rfl

theorem expectDot_eq (l r : List Char) : expectDot l = some r ↔ l = '.' :: r := by
  cases l with
  | nil => simp [expectDot]
  | cons c t => by_cases hc : c = '.' <;> simp [expectDot, hc]

theorem matchVerAt_nil : matchVerAt [] = none := rfl

theorem matchVerAt_exact (d1 d2 d3 : List Char)
    (h1 : d1 ≠ []) (h2 : d2 ≠ []) (h3 : d3 ≠ [])
    (a1 : allDigits d1) (a2 : allDigits d2) (a3 : allDigits d3) :
    matchVerAt (d1 ++ '.' :: (d2 ++ '.' :: d3)) = some (d1 ++ '.' :: (d2 ++ '.' :: d3)) := by
  have t1 : takeNum (d1 ++ '.' :: (d2 ++ '.' :: d3)) = some (d1, '.' :: (d2 ++ '.' :: d3)) :=
    (takeNum_eq _ _ _).mpr ⟨spanDigits_of_append d1 _ a1 (by simp [headNotDigit]), h1⟩
  have t2 : takeNum (d2 ++ '.' :: d3) = some (d2, '.' :: d3) :=
    (takeNum_eq _ _ _).mpr ⟨spanDigits_of_append d2 _ a2 (by simp [headNotDigit]), h2⟩
  have t3 : takeNum d3 = some (d3, []) :=
    (takeNum_eq _ _ _).mpr ⟨by simpa using spanDigits_of_append d3 [] a3 trivial, h3⟩
  simp [matchVerAt, t1, t2, t3, expectDot]

theorem matchVerAt_isSome_of (d1 d2 d3 rest : List Char)
    (h1 : d1 ≠ []) (h2 : d2 ≠ []) (h3 : d3 ≠ [])
    (a1 : allDigits d1) (a2 : allDigits d2) (a3 : allDigits d3) :
    (matchVerAt (d1 ++ '.' :: (d2 ++ '.' :: (d3 ++ rest)))).isSome = true := by
  have t1 : takeNum (d1 ++ '.' :: (d2 ++ '.' :: (d3 ++ rest))) =
      some (d1, '.' :: (d2 ++ '.' :: (d3 ++ rest))) :=
    (takeNum_eq _ _ _).mpr ⟨spanDigits_of_append d1 _ a1 (by simp [headNotDigit]), h1⟩
  have t2 : takeNum (d2 ++ '.' :: (d3 ++ rest)) = some (d2, '.' :: (d3 ++ rest)) :=
    (takeNum_eq _ _ _).mpr ⟨spanDigits_of_append d2 _ a2 (by simp [headNotDigit]), h2⟩
  have hne : (spanDigits (d3 ++ rest)).1 ≠ [] := by
    cases d3 with
    | nil => exact absurd rfl h3
    | cons c t =>
      have hc : c.isDigit = true := a3 c (by simp)
      simpa using spanDigits_fst_ne_nil c (t ++ rest) hc
  have t3 := takeNum_isSome _ hne
  simp [matchVerAt, t1, t2, t3, expectDot]

theorem searchVer_isSome_append (l1 l2 : List Char) (h : (matchVerAt l2).isSome = true) :
    (searchVer (l1 ++ l2)).isSome = true := by
  induction l1 with
  | nil =>
    cases l2 with
    | nil => rw [matchVerAt_nil] at h; simp at h
    | cons c t =>
      cases hm : matchVerAt (c :: t) with
      | none => rw [hm] at h; simp at h
      | some m => simp [searchVer, hm]
  | cons a l1 ih =>
    cases hm : matchVerAt (a :: (l1 ++ l2)) with
    | none => simpa [searchVer, hm] using ih
    | some m => simp [searchVer, hm]

theorem matchVerAt_sound (cs : List Char) (m : List Char) (h : matchVerAt cs = some m) :
    ∃ d1 d2 d3 post : List Char, d1 ≠ [] ∧ d2 ≠ [] ∧ d3 ≠ [] ∧
      allDigits d1 ∧ allDigits d2 ∧ allDigits d3 ∧
      cs = d1 ++ '.' :: (d2 ++ '.' :: (d3 ++ post)) := by
  simp only [matchVerAt, Option.pure_def, Option.bind_eq_bind, Option.bind_eq_some] at h
  rcases h with ⟨⟨d1, r1⟩, h1, r2, h2, ⟨d2, r3⟩, h3, r4, h4, ⟨d3, r5⟩, h5, hm⟩
  obtain ⟨hs1, n1⟩ := (takeNum_eq _ _ _).mp h1
  obtain ⟨hs2, n2⟩ := (takeNum_eq _ _ _).mp h3
  obtain ⟨hs3, n3⟩ := (takeNum_eq _ _ _).mp h5
  have hd1 : r1 = '.' :: r2 := by simpa using (expectDot_eq _ _).mp h2
  have hd2 : r3 = '.' :: r4 := by simpa using (expectDot_eq _ _).mp h4
  have a1 : allDigits d1 := by
    have := spanDigits_fst_digit cs; rw [hs1] at this; exact this
  have a2 : allDigits d2 := by
    have := spanDigits_fst_digit r2; rw [hs2] at this; exact this
  have a3 : allDigits d3 := by
    have := spanDigits_fst_digit r4; rw [hs3] at this; exact this
  have e1 : d1 ++ r1 = cs := by
    have := spanDigits_eq cs; rw [hs1] at this; exact this
  have e2 : d2 ++ r3 = r2 := by
    have := spanDigits_eq r2; rw [hs2] at this; exact this
  have e3 : d3 ++ r5 = r4 := by
    have := spanDigits_eq r4; rw [hs3] at this; exact this
  refine ⟨d1, d2, d3, r5, n1, n2, n3, a1, a2, a3, ?_⟩
  rw [← e1, hd1, ← e2, hd2, ← e3]

theorem searchVer_sound (cs : List Char) (m : List Char) (h : searchVer cs = some m) :
    ∃ pre d1 d2 d3 post : List Char, d1 ≠ [] ∧ d2 ≠ [] ∧ d3 ≠ [] ∧
      allDigits d1 ∧ allDigits d2 ∧ allDigits d3 ∧
      cs = pre ++ (d1 ++ '.' :: (d2 ++ '.' :: (d3 ++ post))) := by
  induction cs with
  | nil => simp [searchVer] at h
  | cons c t ih =>
    by_cases hm : (matchVerAt (c :: t)).isSome
    · rcases Option.isSome_iff_exists.mp hm with ⟨m', hm'⟩
      rcases matchVerAt_sound _ _ hm' with ⟨d1, d2, d3, post, n1, n2, n3, a1, a2, a3, heq⟩
      exact ⟨[], d1, d2, d3, post, n1, n2, n3, a1, a2, a3, by simpa using heq⟩
    · rw [Option.not_isSome_iff_eq_none] at hm
      have ht : searchVer t = some m := by
        simpa [searchVer, hm] using h
      rcases ih ht with ⟨pre, d1, d2, d3, post, n1, n2, n3, a1, a2, a3, heq⟩
      exact ⟨c :: pre, d1, d2, d3, post, n1, n2, n3, a1, a2, a3, by simp [heq]⟩



/-- C7: version-string shortening is idempotent: on a string that is
exactly a major.minor.patch numeric pattern it returns the string
unchanged, and on a string containing no such pattern the original string
is kept (app.py lines 264-268). -/
theorem c7_shorten_idempotent (s : String) :
    (isExactVerPattern s → shortenVer s = s) ∧
    (¬ containsVerPattern s → shortenVer s = s) := by
  constructor
  · rintro ⟨d1, d2, d3, n1, n2, n3, a1, a2, a3, hdat⟩
    have hm := matchVerAt_exact d1 d2 d3 n1 n2 n3 a1 a2 a3
    have hsv : searchVer s.data = some s.data := by
      rw [hdat]
      cases d1 with
      | nil => exact absurd rfl n1
      | cons c t =>
        have hm' : matchVerAt (c :: (t ++ '.' :: (d2 ++ '.' :: d3))) =
            some ((c :: t) ++ '.' :: (d2 ++ '.' :: d3)) := by
          simpa using hm
        simp [searchVer, hm']
    simp [shortenVer, hsv, mk_data]
  · intro hnc
    cases hv : searchVer s.data with
    | none => simp [shortenVer, hv]
    | some m =>
      rcases searchVer_sound _ _ hv with ⟨pre, d1, d2, d3, post, n1, n2, n3, a1, a2, a3, heq⟩
      exact absurd ⟨pre, d1, d2, d3, post, n1, n2, n3, a1, a2, a3, heq⟩ hnc

/-- C7 witness: the two parts of c7_shorten_idempotent at concrete inputs. -/
theorem c7_witness : shortenVer "6.7.0" = "6.7.0" ∧ shortenVer "Lab" = "Lab" := by
  constructor
  · exact (c7_shorten_idempotent "6.7.0").1
      ⟨['6'], ['7'], ['0'], by decide, by decide, by decide, by decide, by decide,
        by decide, by decide⟩
  · refine (c7_shorten_idempotent "Lab").2 ?_
    rintro ⟨pre, d1, d2, d3, post, n1, n2, n3, _, _, _, heq⟩
    have hlen := congrArg List.length heq
    have h1 : 1 ≤ d1.length := List.length_pos.mpr n1
    have h2 : 1 ≤ d2.length := List.length_pos.mpr n2
    have h3 : 1 ≤ d3.length := List.length_pos.mpr n3
    have hK : ("Lab".data).length = 3 := rfl
    simp only [List.length_append, List.length_cons, hK] at hlen
    omega

/-- C6: parse_file dispatches on the lowercased sheet-name set: the vhost
sheet selects the Format-A parser, else the esx-hosts sheet selects the
Format-B parser, else it fails with an error message containing the site
label (app.py lines 413-421). -/
theorem c6_dispatch (wb : Workbook) (name : String) :
    ("vhost" ∈ sheetNamesLower wb → parse_file wb name = parse_rvtools wb name) ∧
    ("vhost" ∉ sheetNamesLower wb → "esx hosts" ∈ sheetNamesLower wb →
      parse_file wb name = parse_liveoptics wb name) ∧
    ("vhost" ∉ sheetNamesLower wb → "esx hosts" ∉ sheetNamesLower wb →
      ∃ pre post, parse_file wb name = .error (pre ++ name ++ post)) := by
  refine ⟨fun h => by simp [parse_file, h], fun h1 h2 => by simp [parse_file, h1, h2],
    fun h1 h2 => ?_⟩
  exact ⟨"\"", "\" is not a recognised RVTools or LiveOptics export",
    by simp [parse_file, h1, h2]⟩

/-- C6 witness: concrete dispatch outcomes. -/
theorem c6_witness :
    parse_file wbDemo "Lab" = parse_rvtools wbDemo "Lab" ∧
    (∃ pre post, parse_file wbNone "SiteZ" = .error (pre ++ "SiteZ" ++ post)) := by
  constructor
  · exact (c6_dispatch wbDemo "Lab").1 (by decide)
  · exact (c6_dispatch wbNone "SiteZ").2.2 (by decide) (by decide)

/-- C3: the compatibility check is a total function whose status is always
exactly one of compatible, incompatible, unknown, and the empty model
yields unknown with the fixed model-unknown label (app.py lines 137-146). -/
theorem c3_compat_total (model : String) (lookup : List (String × List String)) :
    ((check_vcf9_compat model lookup).status = "compatible" ∨
     (check_vcf9_compat model lookup).status = "incompatible" ∨
     (check_vcf9_compat model lookup).status = "unknown") ∧
    (model = "" → check_vcf9_compat model lookup = ⟨"unknown", "⚠️ VCF9 ?"⟩) := by
  constructor
  · unfold check_vcf9_compat
    split
    · simp [unknownVerdict]
    · split
      · simp
      · split
        · simp
        · simp
  · intro h
    simp [check_vcf9_compat, h, unknownVerdict]

/-- C3 witness: the empty model at a concrete table. -/
theorem c3_witness :
    check_vcf9_compat "" [("x", ["ESXi 9.0"])] = ⟨"unknown", "⚠️ VCF9 ?"⟩ :=
  (c3_compat_total "" [("x", ["ESXi 9.0"])]).2 rfl

/-- C10: for every non-empty model string and every reference table the
verdict is compatible or incompatible, never unknown (app.py lines
137-146: the unknown branch is guarded by the model being falsy). -/
theorem c10_nonempty_never_unknown (model : String) (lookup : List (String × List String))
    (h : model ≠ "") :
    (check_vcf9_compat model lookup).status = "compatible" ∨
    (check_vcf9_compat model lookup).status = "incompatible" := by
  unfold check_vcf9_compat
  rw [if_neg h]
  split
  · simp
  · split
    · simp
    · simp

/-- C10 witness at a concrete non-empty model. -/
theorem c10_witness :
    (check_vcf9_compat "m" []).status = "compatible" ∨
    (check_vcf9_compat "m" []).status = "incompatible" :=
  c10_nonempty_never_unknown "m" [] (by decide)

/-- C4 counterexample: on an exact key match whose release list holds a
duplicate entry, the label repeats the version instead of listing the
distinct versions, so the claim's "all distinct ... strings" fails. -/
theorem c4_counterexample :
    (check_vcf9_compat "m1" [("m1", ["ESXi 9.0", "ESXi 9.0"])]).status = "compatible" ∧
    (check_vcf9_compat "m1" [("m1", ["ESXi 9.0", "ESXi 9.0"])]).label = "✅ VCF 9.0 + 9.0 Ready" ∧
    (check_vcf9_compat "m1" [("m1", ["ESXi 9.0", "ESXi 9.0"])]).label ≠ "✅ VCF 9.0 Ready" := by
  refine ⟨?_, ?_, ?_⟩ <;> decide

/-- C4 amended: on an exact normalized-key match the verdict is compatible
and the label is the fixed marker followed by the supported
platform-version strings sorted ascending (kept with multiplicity, not
deduplicated), joined with " + ", and the suffix "Ready". -/
theorem c4_exact_match (model : String) (lookup : List (String × List String))
    (releases : List String) (hm : model ≠ "")
    (hk : lookup.lookup (modelNorm model) = some releases) :
    ∃ vs : List String,
      check_vcf9_compat model lookup =
        ⟨"compatible", "✅ VCF " ++ joinSep " + " vs ++ " Ready"⟩ ∧
      vs.Perm (releases.map stripESXiStr) ∧ vs.Sorted (· ≤ ·) := by
  refine ⟨sortStrings (releases.map stripESXiStr), ?_, ?_, ?_⟩
  · unfold check_vcf9_compat
    rw [if_neg hm, hk]
    rfl
  · exact List.perm_insertionSort _ _
  · exact (List.sorted_insertionSort (fun a b : String => a.data ≤ b.data)
      (releases.map stripESXiStr)).imp (fun hab => String.le_iff_toList_le.mpr hab)

/-- C4 witness: the amended exact-match behavior at a concrete table. -/
theorem c4_witness :
    ∃ vs : List String,
      check_vcf9_compat "m2" [("m2", ["ESXi 9.0", "ESXi 8.0"])] =
        ⟨"compatible", "✅ VCF " ++ joinSep " + " vs ++ " Ready"⟩ ∧
      vs.Perm (["ESXi 9.0", "ESXi 8.0"].map stripESXiStr) ∧ vs.Sorted (· ≤ ·) :=
  c4_exact_match "m2" [("m2", ["ESXi 9.0", "ESXi 8.0"])] ["ESXi 9.0", "ESXi 8.0"]
    (by decide) (by decide)

theorem licHostStep_inv (tib : ℚ) (sn cn : String) (a : LicAcc) (h : Host)
    (ha : licAccInv tib a) : licAccInv tib (licHostStep tib sn cn a h) := by
  obtain ⟨hrows, hc, ht, hm⟩ := ha
  unfold licHostStep
  by_cases hz : h.sockets = 0 ∨ h.cores_per_socket = 0
  · rw [if_pos hz]
    refine ⟨?_, ?_, ?_, ?_⟩
    · intro r hr
      rcases List.mem_append.mp hr with h1 | h2
      · exact hrows r h1
      · have hr2 := List.mem_singleton.mp h2
        subst hr2
        exact ⟨fun _ => ⟨rfl, rfl, rfl⟩, fun hn => absurd hz hn⟩
    · simpa [List.filter_append] using hc
    · simpa [List.filter_append] using ht
    · simp [List.filter_append, hm]
  · rw [if_neg hz]
    refine ⟨?_, ?_, ?_, ?_⟩
    · intro r hr
      rcases List.mem_append.mp hr with h1 | h2
      · exact hrows r h1
      · have hr2 := List.mem_singleton.mp h2
        subst hr2
        exact ⟨fun hzz => absurd hzz hz, fun _ => ⟨rfl, rfl, rfl⟩⟩
    · simp [List.filter_append, hc]
    · simp [List.filter_append, ht]
    · simpa [List.filter_append] using hm

theorem foldl_pres {α β : Type} (P : β → Prop) (f : β → α → β)
    (hf : ∀ b a, P b → P (f b a)) : ∀ (l : List α) (b : β), P b → P (l.foldl f b) := by
  intro l
  induction l with
  | nil => intro b hb; exact hb
  | cons x xs ih => intro b hb; exact ih _ (hf b x hb)

theorem licFold_inv (tib : ℚ) (sites : List Site) : licAccInv tib (licFold tib sites) := by
  unfold licFold
  have h0 : licAccInv tib ⟨[], 0, 0, 0⟩ := ⟨by simp, by simp, by simp, by simp⟩
  refine foldl_pres (licAccInv tib) _ ?_ sites ⟨[], 0, 0, 0⟩ h0
  intro a s ha
  refine foldl_pres (licAccInv tib) _ ?_ s.clusters a ha
  intro a2 p ha2
  exact foldl_pres (licAccInv tib) _
    (fun b hh hb => licHostStep_inv tib s.site_name p.1 b hh hb) p.2 a2 ha2

/-- C2: the licensing calculator marks a line missing with zero foundation
cores and zero entitlement when sockets or cores-per-socket is zero (still
emitting it), otherwise computes foundation_cores = sockets x max(cores,16)
and entitlement = foundation_cores x multiplier (1.0 for VCF, 0.25 for
VVF); the report totals range over the non-missing lines only
(app.py lines 425-478). -/
theorem c2_licensing (sites : List Site) (dt : String) :
    (∀ r ∈ (calculate_licensing sites dt).rows,
      (r.sockets = 0 ∨ r.cores_per_socket = 0 →
        r.missing = true ∧ r.foundation_cores = 0 ∧ r.entitled_tib = 0) ∧
      (¬(r.sockets = 0 ∨ r.cores_per_socket = 0) →
        r.missing = false ∧
        r.foundation_cores = r.sockets * max r.cores_per_socket 16 ∧
        r.entitled_tib = (r.foundation_cores : ℚ) * (calculate_licensing sites dt).tib_per_core)) ∧
    (calculate_licensing sites dt).total_cores =
      (((calculate_licensing sites dt).rows.filter (fun r => !r.missing)).map
        (fun r => r.foundation_cores)).sum ∧
    (calculate_licensing sites dt).total_tib =
      (((calculate_licensing sites dt).rows.filter (fun r => !r.missing)).map
        (fun r => r.entitled_tib)).sum ∧
    (calculate_licensing sites dt).missing_count =
      ((calculate_licensing sites dt).rows.filter (fun r => r.missing)).length ∧
    (dt = "VCF" → (calculate_licensing sites dt).tib_per_core = 1) ∧
    (dt = "VVF" → (calculate_licensing sites dt).tib_per_core = 1/4) := by
  obtain ⟨hrows, hc, ht, hm⟩ := licFold_inv (if dt = "VCF" then (1 : ℚ) else 1/4) sites
  refine ⟨fun r hr => hrows r hr, hc, ht, hm, fun h => by simp [calculate_licensing, h],
    fun h => ?_⟩
  subst h
  simp [calculate_licensing]

/-- C2 witness: in VCF mode the host with sockets=2 and cores-per-socket=8
yields a non-missing row with foundation_cores = 2 x max(8,16) = 32 and
entitlement 32.0. -/
theorem c2_witness :
    rowA32.missing = false ∧
    rowA32.foundation_cores = rowA32.sockets * max rowA32.cores_per_socket 16 ∧
    rowA32.entitled_tib =
      (rowA32.foundation_cores : ℚ) * (calculate_licensing [siteLic] "VCF").tib_per_core ∧
    rowA32.foundation_cores = 32 ∧ rowA32.entitled_tib = 32 := by
  have hmem : rowA32 ∈ (calculate_licensing [siteLic] "VCF").rows := by
    simp [calculate_licensing, licFold, licHostStep, siteLic, hostA, hostZ, rowA32]
  have h := ((c2_licensing [siteLic] "VCF").1 rowA32 hmem).2 (by decide)
  exact ⟨h.1, h.2.1, h.2.2, by decide, by decide⟩

theorem csvScan_char (acc rest : List Char) (c : Char) (hc : c ≠ '"') :
    csvScan true acc (c :: rest) = csvScan true (c :: acc) rest := by
  rw [csvScan.eq_def]
  simp [hc]

theorem csvScan_field (f : List Char) (hf : ∀ c ∈ f, c ≠ '"') :
    ∀ acc rest, csvScan true acc (f ++ '"' :: rest) =
      csvScan true (f.reverse ++ acc) ('"' :: rest) := by
  induction f with
  | nil => intro acc rest; simp
  | cons c f ih =>
    intro acc rest
    have hc : c ≠ '"' := hf c (by simp)
    rw [List.cons_append, csvScan_char _ _ _ hc, ih (fun x hx => hf x (by simp [hx]))]
    simp [List.append_assoc]

theorem csvScan_close_end (acc : List Char) :
    csvScan true acc ['"'] = some [String.mk acc.reverse] := by
  rw [csvScan.eq_def]
  simp

theorem csvScan_close_comma (acc rest : List Char) :
    csvScan true acc ('"' :: ',' :: rest) =
      (csvScan false [] rest).map (fun fs => String.mk acc.reverse :: fs) := by
  rw [csvScan.eq_def]
  simp

theorem csvScan_openQuote (acc rest : List Char) :
    csvScan false acc ('"' :: rest) = csvScan true [] rest := by
  rw [csvScan.eq_def]
  simp

theorem csvFormatRow_single (v : String) :
    (csvFormatRow [v]).data = '"' :: (v.data ++ ['"']) := by
  show ("\"" ++ v ++ "\"").data = _
  simp [String.data_append, show ("\"" : String).data = ['"'] from rfl]

theorem csvFormatRow_cons (v w : String) (rest : List String) :
    (csvFormatRow (v :: w :: rest)).data =
      '"' :: (v.data ++ '"' :: ',' :: (csvFormatRow (w :: rest)).data) := by
  show (("\"" ++ v ++ "\"") ++ "," ++ csvFormatRow (w :: rest)).data = _
  simp [String.data_append, show ("\"" : String).data = ['"'] from rfl,
    show ("," : String).data = [','] from rfl]

theorem csvScan_roundtrip : ∀ vals : List String, vals ≠ [] →
    (∀ v ∈ vals, ∀ c ∈ v.data, c ≠ '"') →
    csvParseRow (csvFormatRow vals) = some vals := by
  intro vals
  induction vals with
  | nil => intro h _; exact absurd rfl h
  | cons v rest ih =>
    intro _ hq
    unfold csvParseRow
    cases rest with
    | nil =>
      rw [csvFormatRow_single, csvScan_openQuote,
        show v.data ++ ['"'] = v.data ++ '"' :: [] from rfl,
        csvScan_field v.data (hq v (by simp)) [] [], csvScan_close_end]
      simp [mk_data]
    | cons w rest2 =>
      rw [csvFormatRow_cons, csvScan_openQuote,
        csvScan_field v.data (hq v (by simp)) [] (',' :: (csvFormatRow (w :: rest2)).data),
        csvScan_close_comma]
      have hrec := ih (by simp) (fun x hx => hq x (by simp [hx]))
      unfold csvParseRow at hrec
      rw [hrec]
      simp [mk_data]

/-- C9: both CSV report formatters emit every data row with each field
wrapped in double quotes and joined by commas, and any such formatted row
parses back to the original field values whenever no value contains a
double quote or a newline; in particular values containing commas are
protected by the quoting (app.py lines 181-187 and 481-489). -/
theorem c9_csv_quoting_roundtrip :
    (∀ rep : Vcf9Report, vcf9_report_csv rep =
      joinSep "\n" ("Site,Cluster,Hostname,Model,ESXi Version,VCF9 Status" ::
        rep.rows.map (fun r =>
          joinSep "," ([r.site, r.cluster, r.hostname, r.model, r.esxi, r.label].map
            (fun v => "\"" ++ v ++ "\""))))) ∧
    (∀ rep : LicReport, license_report_csv rep =
      joinSep "\n"
        (("Site,Cluster,Hostname,Sockets,Cores per Socket,Foundation Cores,Entitled TiB" ::
          rep.rows.map (fun r =>
            joinSep "," ([r.site, r.cluster, r.hostname, toString r.sockets,
              toString r.cores_per_socket,
              if r.missing then "" else toString r.foundation_cores,
              if r.missing then "" else fmtF2 r.entitled_tib].map
              (fun v => "\"" ++ v ++ "\"")))) ++
          [joinSep "," (["Total", "", "", "", "", toString rep.total_cores,
            fmtF2 rep.total_tib].map (fun v => "\"" ++ v ++ "\""))])) ∧
    (∀ vals : List String, vals ≠ [] →
      (∀ v ∈ vals, ∀ c ∈ v.data, c ≠ '"' ∧ c ≠ '\n') →
      csvParseRow (csvFormatRow vals) = some vals) := by
  refine ⟨fun rep => rfl, fun rep => rfl, fun vals hne hq => ?_⟩
  exact csvScan_roundtrip vals hne (fun v hv c hc => (hq v hv c hc).1)

/-- C9 witness: a row whose first value contains a comma round-trips. -/
theorem c9_witness : csvParseRow (csvFormatRow ["a,b", "c"]) = some ["a,b", "c"] :=
  c9_csv_quoting_roundtrip.2.2 ["a,b", "c"] (by decide) (by decide)

theorem length_filterMap_countP {α β : Type} (f : α → Option β) (p : α → Bool)
    (hp : ∀ a, (f a).isSome = p a) (l : List α) :
    (l.filterMap f).length = l.countP p := by
  induction l with
  | nil => rfl
  | cons x xs ih =>
    cases hf : f x with
    | none =>
      have hx : p x = false := by rw [← hp x, hf]; rfl
      simp [List.filterMap_cons, hf, List.countP_cons, hx, ih]
    | some b =>
      have hx : p x = true := by rw [← hp x, hf]; rfl
      simp [List.filterMap_cons, hf, List.countP_cons, hx, ih]

theorem rvRowHost_isSome (cols : RvCols) (row : Row) :
    (rvRowHost cols row).isSome = (rvHostname cols row != "") := by
  unfold rvRowHost
  by_cases h : rvHostname cols row = "" <;> simp [h]

theorem loRowHost_isSome (colSockets colCores : Option String) (perfRows : List Row)
    (row : Row) :
    (loRowHost colSockets colCores perfRows row).isSome = (cellStr row "Host Name" != "") := by
  unfold loRowHost
  by_cases h : cellStr row "Host Name" = "" <;> simp [h]

theorem addToCluster_sumLen (acc : List (String × List Host)) (c : String) (h : Host) :
    ((addToCluster acc c h).map (fun p => p.2.length)).sum =
      (acc.map (fun p => p.2.length)).sum + 1 := by
  induction acc with
  | nil => simp [addToCluster]
  | cons kh rest ih =>
    obtain ⟨k, hs⟩ := kh
    by_cases hk : k = c
    · simp [addToCluster, hk]
      omega
    · simp [addToCluster, hk, ih]
      omega

theorem groupClusters_sumLen (hosts : List Host) :
    ((groupClusters hosts).map (fun p => p.2.length)).sum = hosts.length := by
  suffices hgen : ∀ (l : List Host) (acc : List (String × List Host)),
      ((l.foldl (fun a hh => addToCluster a hh.cluster hh) acc).map
        (fun p => p.2.length)).sum = (acc.map (fun p => p.2.length)).sum + l.length by
    simpa [groupClusters] using hgen hosts []
  intro l
  induction l with
  | nil => intro acc; simp
  | cons x xs ih =>
    intro acc
    rw [List.foldl_cons, ih (addToCluster acc x.cluster x), addToCluster_sumLen]
    simp [Nat.add_assoc, Nat.add_comm 1 xs.length]

/-- C1: a successfully parsed workbook in either format yields a Site whose
total_hosts is the number of rows with a non-blank hostname, and this also
equals the sum of per-cluster host-list lengths over the cluster map
(app.py lines 251-325 and 359-410). -/
theorem c1_total_hosts (wb : Workbook) (name : String) (site : Site)
    (h : parse_file wb name = .ok site) :
    nonBlankHostnameRows wb = some site.total_hosts ∧
    (site.clusters.map (fun p => p.2.length)).sum = site.total_hosts := by
  unfold parse_file at h
  by_cases h1 : "vhost" ∈ sheetNamesLower wb
  · rw [if_pos h1] at h
    unfold parse_rvtools at h
    cases hs : getSheetCI wb "vhost" with
    | none => rw [hs] at h; cases h
    | some vh =>
      rw [hs] at h
      injection h with h2
      subst h2
      constructor
      · unfold nonBlankHostnameRows
        rw [if_pos h1, hs]
        exact congrArg some
          (length_filterMap_countP _ _ (fun r => rvRowHost_isSome (rvCols vh.columns) r)
            vh.rows).symm
      · exact groupClusters_sumLen _
  · rw [if_neg h1] at h
    by_cases h2 : "esx hosts" ∈ sheetNamesLower wb
    · rw [if_pos h2] at h
      unfold parse_liveoptics at h
      cases hs : getSheetCI wb "esx hosts" with
      | none => rw [hs] at h; cases h
      | some hsheet =>
        rw [hs] at h
        injection h with h3
        subst h3
        constructor
        · unfold nonBlankHostnameRows
          rw [if_neg h1, if_pos h2, hs]
          exact congrArg some
            (length_filterMap_countP _ _ (fun r => loRowHost_isSome _ _ _ r) hsheet.rows).symm
        · exact groupClusters_sumLen _
    · rw [if_neg h2] at h
      cases h

/-- C1 witness: the demo Format-A workbook has 4 non-blank-hostname rows,
and the parsed site's totals agree. -/
theorem c1_witness :
    nonBlankHostnameRows wbDemo = some siteDemo.total_hosts ∧
    (siteDemo.clusters.map (fun p => p.2.length)).sum = siteDemo.total_hosts :=
  c1_total_hosts wbDemo "Lab" siteDemo (by rfl)

theorem enumFrom_fst_ge {α : Type} (n : Nat) (l : List α) :
    ∀ p ∈ List.enumFrom n l, n ≤ p.1 := by
  induction l generalizing n with
  | nil => intro p hp; simp at hp
  | cons a t ih =>
    intro p hp
    rcases List.mem_cons.mp hp with rfl | hmem
    · exact Nat.le_refl n
    · exact Nat.le_trans (Nat.le_succ n) (ih (n + 1) p hmem)

theorem enumFrom_fst_lt_len {α : Type} (n : Nat) (l : List α) :
    ∀ p ∈ List.enumFrom n l, p.1 < n + l.length := by
  induction l generalizing n with
  | nil => intro p hp; simp at hp
  | cons a t ih =>
    intro p hp
    rcases List.mem_cons.mp hp with rfl | hmem
    · simp
    · have := ih (n + 1) p hmem
      simp only [List.length_cons]
      omega

theorem enumFrom_pairwise_lt {α : Type} (n : Nat) (l : List α) :
    (List.enumFrom n l).Pairwise (fun p q => p.1 < q.1) := by
  induction l generalizing n with
  | nil => simp
  | cons a t ih =>
    refine List.Pairwise.cons ?_ (ih (n + 1))
    intro q hq
    have := enumFrom_fst_ge (n + 1) t q hq
    omega

theorem hostElement_not_overlap (vcf9On : Bool) (x0 cy hostH : Nat) (i j : Nat)
    (hij : i < j) (h1 h2 : Host) :
    ¬ overlaps (hostElement vcf9On x0 cy hostH i h1) (hostElement vcf9On x0 cy hostH j h2) := by
  intro ho
  obtain ⟨o1, o2, o3, o4⟩ := ho
  simp only [hostElement, PAD, HOST_W, COL_GAP, ROW_GAP, COLS] at o1 o2 o3 o4
  by_cases hc : i % 3 = j % 3
  · have hd : i / 3 + 1 ≤ j / 3 := by omega
    have key : i / 3 * (hostH + 8) + (hostH + 8) ≤ j / 3 * (hostH + 8) := by
      calc i / 3 * (hostH + 8) + (hostH + 8) = (i / 3 + 1) * (hostH + 8) := by ring
        _ ≤ j / 3 * (hostH + 8) := Nat.mul_le_mul_right _ hd
    clear o1 o2 o3
    generalize i / 3 * (hostH + 8) = A at o4 key
    generalize j / 3 * (hostH + 8) = B at o4 key
    omega
  · clear o3 o4
    omega

theorem clusterHost_pairwise (vcf9On : Bool) (x0 cy hostH : Nat) (hs : List Host) :
    (hs.enum.map (fun p => hostElement vcf9On x0 cy hostH p.1 p.2)).Pairwise
      (fun a b => ¬ overlaps a b) := by
  rw [List.pairwise_map]
  exact (enumFrom_pairwise_lt 0 hs).imp
    (fun hpq => hostElement_not_overlap vcf9On x0 cy hostH _ _ hpq _ _)

theorem clusterHost_y_ub (vcf9On : Bool) (x0 cy hostH : Nat) (hs : List Host) (e : Element)
    (he : e ∈ hs.enum.map (fun p => hostElement vcf9On x0 cy hostH p.1 p.2)) :
    e.y + e.h + ROW_GAP ≤ cy + ((hs.length + COLS - 1) / COLS) * (hostH + ROW_GAP) := by
  rcases List.mem_map.mp he with ⟨p, hp, rfl⟩
  have hi : p.1 < hs.length := by
    have := enumFrom_fst_lt_len 0 hs p hp
    omega
  have hq1 : p.1 / 3 + 1 ≤ (hs.length + 3 - 1) / 3 := by omega
  have key : (p.1 / 3 + 1) * (hostH + 8) ≤ ((hs.length + 3 - 1) / 3) * (hostH + 8) :=
    Nat.mul_le_mul_right _ hq1
  have expand : (p.1 / 3 + 1) * (hostH + 8) = p.1 / 3 * (hostH + 8) + (hostH + 8) := by ring
  simp only [hostElement, ROW_GAP, COLS]
  generalize hA : p.1 / 3 * (hostH + 8) = A at expand
  generalize hB : ((hs.length + 3 - 1) / 3) * (hostH + 8) = B at key
  generalize hC : (p.1 / 3 + 1) * (hostH + 8) = C at key expand
  omega

theorem clusterHost_kind (vcf9On : Bool) (x0 cy hostH : Nat) (hs : List Host) (e : Element)
    (he : e ∈ hs.enum.map (fun p => hostElement vcf9On x0 cy hostH p.1 p.2)) :
    e.kind = EKind.host := by
  rcases List.mem_map.mp he with ⟨p, _, rfl⟩
  rfl

theorem clustersEls_kind (vcf9On : Bool) (x0 hostH : Nat) :
    ∀ (cs : List (String × List Host)) (cy : Nat) (e : Element),
      e ∈ clustersEls vcf9On x0 hostH cs cy →
      e.kind = EKind.clusterLabel ∨ e.kind = EKind.host := by
  intro cs
  induction cs with
  | nil => intro cy e he; simp [clustersEls] at he
  | cons p rest ih =>
    intro cy e he
    obtain ⟨cname, chosts⟩ := p
    simp only [clustersEls] at he
    rcases List.mem_cons.mp he with rfl | hmem
    · exact Or.inl rfl
    rcases List.mem_append.mp hmem with hmem1 | hmem2
    · exact Or.inr (clusterHost_kind vcf9On x0 _ hostH chosts e hmem1)
    · exact ih _ e hmem2

theorem clustersEls_host_y_lb (vcf9On : Bool) (x0 hostH : Nat) :
    ∀ (cs : List (String × List Host)) (cy : Nat) (e : Element),
      e ∈ clustersEls vcf9On x0 hostH cs cy → e.kind = EKind.host → cy ≤ e.y := by
  intro cs
  induction cs with
  | nil => intro cy e he _; simp [clustersEls] at he
  | cons p rest ih =>
    intro cy e he hk
    obtain ⟨cname, chosts⟩ := p
    simp only [clustersEls] at he
    rcases List.mem_cons.mp he with rfl | hmem
    · simp at hk
    rcases List.mem_append.mp hmem with hmem1 | hmem2
    · rcases List.mem_map.mp hmem1 with ⟨q, _, rfl⟩
      simp only [hostElement, CLUSTER_H, PAD]
      generalize q.1 / COLS * (hostH + ROW_GAP) = A
      omega
    · have hrec := ih _ e hmem2 hk
      have hstep : cy ≤ cy + CLUSTER_H + PAD +
          ((chosts.length + COLS - 1) / COLS) * (hostH + ROW_GAP) + PAD := by
        generalize ((chosts.length + COLS - 1) / COLS) * (hostH + ROW_GAP) = A
        omega
      omega

theorem filter_host_map_hostElement (vcf9On : Bool) (x0 cy hostH : Nat) (hs : List Host) :
    (hs.enum.map (fun p => hostElement vcf9On x0 cy hostH p.1 p.2)).filter
      (fun e => e.kind == EKind.host) =
      hs.enum.map (fun p => hostElement vcf9On x0 cy hostH p.1 p.2) := by
  refine List.filter_eq_self.mpr ?_
  intro e he
  have := clusterHost_kind vcf9On x0 cy hostH hs e he
  simp [this]

theorem clustersEls_pairwise (vcf9On : Bool) (x0 hostH : Nat) :
    ∀ (cs : List (String × List Host)) (cy : Nat),
      ((clustersEls vcf9On x0 hostH cs cy).filter (fun e => e.kind == EKind.host)).Pairwise
        (fun a b => ¬ overlaps a b) := by
  intro cs
  induction cs with
  | nil => intro cy; simp [clustersEls]
  | cons p rest ih =>
    intro cy
    obtain ⟨cname, chosts⟩ := p
    simp only [clustersEls, List.filter_cons, List.filter_append]
    rw [if_neg (by decide : ¬ ((EKind.clusterLabel == EKind.host) = true))]
    rw [filter_host_map_hostElement]
    rw [List.pairwise_append]
    refine ⟨clusterHost_pairwise vcf9On x0 _ hostH chosts, ih _, ?_⟩
    intro a ha b hb
    have hub := clusterHost_y_ub vcf9On x0 _ hostH chosts a ha
    have hbk : b.kind = EKind.host := by
      have := List.of_mem_filter hb
      simpa using this
    have hlb := clustersEls_host_y_lb vcf9On x0 hostH rest _ b (List.mem_of_mem_filter hb) hbk
    intro ho
    obtain ⟨_, _, _, o4⟩ := ho
    simp only [ROW_GAP, COLS, CLUSTER_H, PAD] at hub hlb
    generalize ((chosts.length + 3 - 1) / 3) * (hostH + 8) = A at hub hlb
    omega

theorem siteElements_host_pairwise (vcf9On : Bool) (site : Site) (x0 hostH : Nat) :
    ((siteElements vcf9On site x0 hostH).filter (fun e => e.kind == EKind.host)).Pairwise
      (fun a b => ¬ overlaps a b) := by
  simp only [siteElements, List.filter_cons]
  rw [if_neg (by decide : ¬ ((EKind.zone == EKind.host) = true))]
  rw [if_neg (by decide : ¬ ((EKind.header == EKind.host) = true))]
  exact clustersEls_pairwise vcf9On x0 hostH site.clusters (CANVAS_Y + HEADER_H + PAD)

theorem siteElements_zone_w (vcf9On : Bool) (site : Site) (x0 hostH : Nat) (e : Element)
    (he : e ∈ siteElements vcf9On site x0 hostH) (hk : e.kind = EKind.zone) : e.w = ZONE_W := by
  simp only [siteElements] at he
  rcases List.mem_cons.mp he with rfl | he2
  · rfl
  rcases List.mem_cons.mp he2 with rfl | he3
  · simp at hk
  · rcases clustersEls_kind vcf9On x0 hostH site.clusters _ e he3 with h | h <;>
      rw [h] at hk <;> cases hk

theorem sitesElements_mem (vcf9On : Bool) (hostH : Nat) :
    ∀ (ss : List Site) (x0 : Nat) (grp : List Element),
      grp ∈ sitesElements vcf9On hostH ss x0 →
      ∃ s x1, grp = siteElements vcf9On s x1 hostH := by
  intro ss
  induction ss with
  | nil => intro x0 grp hg; simp [sitesElements] at hg
  | cons s rest ih =>
    intro x0 grp hg
    simp only [sitesElements] at hg
    rcases List.mem_cons.mp hg with rfl | hmem
    · exact ⟨s, x0, rfl⟩
    · exact ih _ grp hmem

/-- C5: for every list of sites and either host-box height mode, no two
host boxes of the same site zone overlap, and every site zone element has
the fixed width ZONE_W regardless of content (app.py lines 645-731:
content only grows zone_h, while the zone rect width is always ZONE_W). -/
theorem c5_no_overlap_fixed_width (sites : List Site) (vcf9On : Bool) :
    (∀ grp ∈ sitesElements vcf9On (if vcf9On then 140 else HOST_H) sites CANVAS_X,
      (grp.filter (fun e => e.kind == EKind.host)).Pairwise (fun a b => ¬ overlaps a b)) ∧
    (∀ e ∈ generateLayout sites vcf9On, e.kind = EKind.zone → e.w = ZONE_W) := by
  constructor
  · intro grp hg
    rcases sitesElements_mem vcf9On _ sites CANVAS_X grp hg with ⟨s, x1, rfl⟩
    exact siteElements_host_pairwise vcf9On s x1 _
  · intro e he hk
    unfold generateLayout at he
    rcases List.mem_append.mp he with h1 | h2
    · rcases List.mem_flatten.mp h1 with ⟨grp, hg, hge⟩
      rcases sitesElements_mem vcf9On _ sites CANVAS_X grp hg with ⟨s, x1, rfl⟩
      exact siteElements_zone_w vcf9On s x1 _ e hge hk
    · by_cases hv : vcf9On
      · rw [if_pos hv] at h2
        have := List.mem_singleton.mp h2
        subst this
        cases hk
      · rw [if_neg hv] at h2
        simp at h2

/-- C5 witness: the parsed demo site's host boxes are pairwise
non-overlapping and the first generated element is a zone of width 780. -/
theorem c5_witness :
    ((siteElements false siteDemo CANVAS_X HOST_H).filter
      (fun e => e.kind == EKind.host)).Pairwise (fun a b => ¬ overlaps a b) ∧
    elemDemo0.w = ZONE_W := by
  constructor
  · exact (c5_no_overlap_fixed_width [siteDemo] false).1 _ (by simp [sitesElements])
  · exact (c5_no_overlap_fixed_width [siteDemo] false).2 elemDemo0 (by decide) (by decide)

/-- C8 counterexample: for the concrete Format-A workbook with 4 hosts
split 3 in ClusterA and 1 in ClusterB, the three ClusterA host boxes (the
first three host elements of the laid-out site) all sit on the same y,
contradicting the claimed 2-row-wrapping layout for ClusterA. -/
theorem c8_counterexample :
    ¬ ∃ e1 ∈ ((generateLayout [siteDemo] false).filter
        (fun e => e.kind == EKind.host)).take 3,
      ∃ e2 ∈ ((generateLayout [siteDemo] false).filter
        (fun e => e.kind == EKind.host)).take 3, e1.y ≠ e2.y := by
  decide

/-- C8 amended: that workbook parses and lays out to exactly 1 site zone
element, 2 cluster-label elements and 4 host elements; ClusterA's three
hosts fill one row of three columns (no wrap), and ClusterB's host sits
alone on the following row band. -/
theorem c8_layout_counts :
    parse_file wbDemo "Lab" = .ok siteDemo ∧
    ((generateLayout [siteDemo] false).filter (fun e => e.kind == EKind.zone)).length = 1 ∧
    ((generateLayout [siteDemo] false).filter
      (fun e => e.kind == EKind.clusterLabel)).length = 2 ∧
    ((generateLayout [siteDemo] false).filter (fun e => e.kind == EKind.host)).length = 4 ∧
    ((generateLayout [siteDemo] false).filter (fun e => e.kind == EKind.host)).map
      (fun e => (e.x, e.y)) = [(72, 177), (312, 177), (552, 177), (72, 357)] := by
  refine ⟨rfl, ?_, ?_, ?_, ?_⟩ <;> decide

end InfraLens
